import Mathlib

/-!
Verification of the CaterpillarSimulatorLib physics core against its
natural-language specification.  The Rust sources under `src/lib/src/` are
shallowly embedded below: `f64` is modelled by `ℚ` wherever the code only
adds, multiplies, divides and compares (so every definition stays
computable and decidable), and by `ℝ` where the code calls `sqrt`, `sin`
or `acos` (torsion-spring geometry, oscillator phases).  Mutation of a
`Cell` field becomes explicit state passing; a Rust `panic!` or indexing
failure becomes `none` / `Except.error`.
-/

namespace Caterpillar

/-- `coordinate.rs`: 3-D vector with components x, y, z. -/
structure Coordinate (α : Type) where
  x : α
  y : α
  z : α
deriving Repr, DecidableEq

namespace Coordinate

variable {α : Type} [Field α]

/-- `Coordinate::new`. -/
def new (x y z : α) : Coordinate α := ⟨x, y, z⟩

/-- `Coordinate::zero`. -/
def zero : Coordinate α := ⟨0, 0, 0⟩

/-- `impl ops::Add for Coordinate`. -/
def add (a b : Coordinate α) : Coordinate α := ⟨a.x + b.x, a.y + b.y, a.z + b.z⟩

/-- `impl ops::Sub for Coordinate`. -/
def sub (a b : Coordinate α) : Coordinate α := ⟨a.x - b.x, a.y - b.y, a.z - b.z⟩

/-- `impl ops::Mul<f64> for Coordinate`: scaling by a scalar on the right. -/
def smul (a : Coordinate α) (c : α) : Coordinate α := ⟨a.x * c, a.y * c, a.z * c⟩

/-- `impl ops::Div<f64> for Coordinate`. -/
def divs (a : Coordinate α) (c : α) : Coordinate α := ⟨a.x / c, a.y / c, a.z / c⟩

/-- `Coordinate::inner_product`. -/
def inner_product (a b : Coordinate α) : α := a.x * b.x + a.y * b.y + a.z * b.z

/-- `Coordinate::cross_product`. -/
def cross_product (a b : Coordinate α) : Coordinate α :=
  ⟨a.y * b.z - a.z * b.y, a.z * b.x - a.x * b.z, a.x * b.y - a.y * b.x⟩

instance : Add (Coordinate α) := ⟨add⟩
instance : Sub (Coordinate α) := ⟨sub⟩

theorem sub_def (a b : Coordinate α) : a - b = ⟨a.x - b.x, a.y - b.y, a.z - b.z⟩ := rfl

/-- `Coordinate::norm`, only meaningful over the reals (`sqrt`). -/
noncomputable def norm (a : Coordinate ℝ) : ℝ := Real.sqrt (a.x ^ 2 + a.y ^ 2 + a.z ^ 2)

/-- The sum of squared components (the square of `norm`); kept separate so
that statements about degeneracy avoid `sqrt`. -/
def sumsq (a : Coordinate α) : α := a.x ^ 2 + a.y ^ 2 + a.z ^ 2

end Coordinate

/-- Rust `f64::signum` restricted to non-NaN inputs; on `+0.0` Rust returns
`1.0`, which matches this model at `0`.  Every call site in the embedded code
is guarded so that the argument is non-zero. -/
def rsignum {α : Type} [Field α] [LinearOrder α] : α → α := fun a =>
  if a < 0 then -1 else 1

/-- `somite.rs`: per-body state.  The Rust struct wraps position, verocity
(sic), force, the gripping flag and gripping point in `Cell`s mutated in
place; here mutation is explicit state passing. -/
structure Somite (α : Type) where
  position : Coordinate α
  verocity : Coordinate α
  force : Coordinate α
  radius : α
  mass : α
  gripping_flag : Bool
  gripping_point : Coordinate α

namespace Somite

variable {α : Type} [Field α]

/-- `Somite::new`. -/
def new (radius mass : α) (position verocity : Coordinate α) : Somite α :=
  { position := position
    verocity := verocity
    force := Coordinate.zero
    radius := radius
    mass := mass
    gripping_flag := false
    gripping_point := Coordinate.zero }

/-- `Somite::new_still_somite`. -/
def new_still_somite (radius mass : α) (position : Coordinate α) : Somite α :=
  new radius mass position Coordinate.zero

/-- `Somite::set_position`. -/
def set_position (s : Somite α) (position : Coordinate α) : Somite α :=
  { s with position := position }

/-- `Somite::is_on_ground` (the no-argument form used by `dynamics.rs`):
`self.position.get().z <= self.radius`. -/
def is_on_ground [LE α] (s : Somite α) : Prop := s.position.z ≤ s.radius

/-- `Somite::is_gripping`. -/
def is_gripping (s : Somite α) : Prop := s.gripping_flag = true

/-- `Somite::grip`: sets the flag and records the gripping point, but only
if the gripping flag was false. -/
def grip (s : Somite α) : Somite α :=
  if s.gripping_flag then s
  else { s with gripping_flag := true, gripping_point := s.position }

/-- `Somite::release`. -/
def release (s : Somite α) : Somite α := { s with gripping_flag := false }

/-- `Somite::get_gripping_point`: `Some` exactly while the flag is set. -/
def get_gripping_point (s : Somite α) : Option (Coordinate α) :=
  if s.gripping_flag then some s.gripping_point else none

end Somite

instance (s : Somite ℚ) : Decidable s.is_on_ground :=
  inferInstanceAs (Decidable (_ ≤ _))

/-- `calculations.rs`: `differentiate` returns `None` on a zero time step
and the backward difference quotient otherwise. -/
def differentiate (previous_val current_val dt : ℚ) : Option ℚ :=
  if dt = 0 then none else some ((current_val - previous_val) / dt)

/-- Indexing a list by a Rust `usize` expression that may have underflowed:
the index is carried as an `Int`; a negative index — Rust's wrap-around
followed by the out-of-bounds panic (or the debug-mode overflow panic) —
and an index past the end both yield `none`. -/
def listGetI {α : Type} (l : List α) (i : Int) : Option α :=
  if 0 ≤ i then l.get? i.toNat else none

/-- `path_heights.rs`: `STUCK_EPSILON = 10e-3`. -/
def STUCK_EPSILON : ℚ := 10e-3

/-- `path_heights.rs`: stepwise path heights, one `(start_point, height)`
pair per section, stored as two parallel vectors. -/
structure PathHeights where
  start_points : List ℚ
  heights : List ℚ

namespace PathHeights

/-- `PathHeights::new`: the plain path `{0 ↦ 0}`. -/
def new : PathHeights := ⟨[0], [0]⟩

/-- `PathHeights::set`: appends a section start and height, rejecting a
negative start point. -/
def set (ph : PathHeights) (start_point height : ℚ) : Except String PathHeights :=
  if start_point < 0 then Except.error "start_point cannot be negative"
  else Except.ok ⟨ph.start_points ++ [start_point], ph.heights ++ [height]⟩

/-- The `for (i, start_point) in start_points.iter().enumerate()` loop of
`PathHeights::is_on_ground`, together with the code after it (reached when
the loop finishes without returning).  `g s h` stands for the somite-level
contact test `s.is_on_ground(h)` against height `h` (the one-argument
`Somite` method this version of `path_heights.rs` expects; its callers'
crate snapshot does not include it, so it is left abstract — no claim
depends on its value).  `hs` is the full `heights` vector, `i` the current
enumeration index. -/
def is_on_groundGo (g : Somite ℚ → ℚ → Bool) (hs : List ℚ) (s : Somite ℚ) :
    Nat → List ℚ → Option Bool
  | _, [] =>
    match listGetI hs ((hs.length : Int) - 1) with
    | none => none
    | some hlast =>
      if s.position.z < s.radius + hlast - STUCK_EPSILON then
        (listGetI hs ((hs.length : Int) - 2)).map (fun h => g s h)
      else some (g s hlast)
  | i, start_point :: rest =>
    if start_point > s.position.x then
      match listGetI hs ((i : Int) - 1) with
      | none => none
      | some hprev =>
        if s.position.z < s.radius + hprev - STUCK_EPSILON then
          (listGetI hs ((i : Int) - 2)).map (fun h => g s h)
        else some (g s hprev)
    else is_on_groundGo g hs s (i + 1) rest

/-- `PathHeights::is_on_ground`.  `none` models a panic (an out-of-bounds
or underflowed vector index). -/
def is_on_ground (ph : PathHeights) (g : Somite ℚ → ℚ → Bool) (s : Somite ℚ) :
    Option Bool :=
  match listGetI ph.start_points 0 with
  | none => none
  | some sp0 =>
    if s.position.x < sp0 then (listGetI ph.heights 0).map (fun h => g s h)
    else is_on_groundGo g ph.heights s 0 ph.start_points

/-- The `for` loop of `PathHeights::get_height` plus its fall-through
(`heights.last().unwrap()`). -/
def get_heightGo (hs : List ℚ) (x : ℚ) : Nat → List ℚ → Option ℚ
  | _, [] => hs.getLast?
  | i, start_point :: rest =>
    if start_point > x then listGetI hs ((i : Int) - 1)
    else get_heightGo hs x (i + 1) rest

/-- `PathHeights::get_height`. -/
def get_height (ph : PathHeights) (x : ℚ) : Option ℚ :=
  match ph.start_points.head? with
  | none => none
  | some first => if x < first then ph.heights.head? else get_heightGo ph.heights x 0 ph.start_points

/-- Reference recursion for the scan performed by `get_height`'s loop: walk
the `(start_point, height)` entries keeping the previous height, return the
previous height at the first start point exceeding `x`, and the final
height when the entries run out. -/
def stepLookup (x : ℚ) : ℚ → List (ℚ × ℚ) → ℚ
  | hprev, [] => hprev
  | hprev, e :: rest => if e.1 > x then hprev else stepLookup x e.2 rest

/-- Written from the spec's words, for comparison with `get_height`: "the
height of the last entry whose start_x ≤ x". -/
def specLastHeight (entries : List (ℚ × ℚ)) (x : ℚ) : Option ℚ :=
  ((entries.filter (fun e => decide (e.1 ≤ x))).getLast?).map Prod.snd

end PathHeights

/-- `torsion_spring.rs` and `somite.rs`: `EPSILON = 1.0e-5`. -/
def EPSILON : ℝ := 1e-5

/-- `torsion_spring.rs`: joint-angle force law about the fixed axis
`standard_vector` (the constructor requires the axis to have unit norm). -/
structure TorsionSpring where
  spring_constant_k0 : ℝ
  spring_constant_k1 : ℝ
  standard_vector : Coordinate ℝ

namespace TorsionSpring

/-- `TorsionSpring::project`: the component of `v` orthogonal to the axis. -/
noncomputable def project (t : TorsionSpring) (v : Coordinate ℝ) : Coordinate ℝ :=
  v - t.standard_vector.smul (t.standard_vector.inner_product v)

/-- `TorsionSpring::normal_vector`: anti-clockwise orthogonal unit vector
to (the projection of) `v`. -/
noncomputable def normal_vector (t : TorsionSpring) (v : Coordinate ℝ) : Coordinate ℝ :=
  (t.standard_vector.cross_product (t.project v)).divs (t.project v).norm

/-- `TorsionSpring::calculate_spring_constant`: progressive stiffness
`k0 + k1 * |angle|`. -/
noncomputable def calculate_spring_constant (t : TorsionSpring) (target_angle : ℝ) : ℝ :=
  t.spring_constant_k0 + t.spring_constant_k1 * |target_angle|

/-- `TorsionSpring::force_on_discrepancy`.  Note the guard compares the
signed discrepancy — not its absolute value — with `EPSILON`. -/
noncomputable def force_on_discrepancy (t : TorsionSpring)
    (base center tip : Coordinate ℝ) (discrepancy_angle_angle : ℝ) :
    Coordinate ℝ × Coordinate ℝ :=
  let vec_bc := center - base
  let vec_ct := tip - center
  if discrepancy_angle_angle < EPSILON then
    (Coordinate.zero, Coordinate.zero)
  else
    (((t.normal_vector vec_ct).smul
        (t.calculate_spring_constant discrepancy_angle_angle)).smul discrepancy_angle_angle,
     ((t.normal_vector vec_bc).smul
        (t.calculate_spring_constant discrepancy_angle_angle)).smul discrepancy_angle_angle)

end TorsionSpring

/-- `phase_oscillator.rs`: a scalar phase accumulator. -/
structure PhaseOscillator where
  current_phase : ℝ

namespace PhaseOscillator

/-- `PhaseOscillator::new`. -/
def new : PhaseOscillator := ⟨0⟩

/-- `PhaseOscillator::get_phase`. -/
def get_phase (o : PhaseOscillator) : ℝ := o.current_phase

/-- `PhaseOscillator::set_phase`. -/
def set_phase (_o : PhaseOscillator) (phase : ℝ) : PhaseOscillator := ⟨phase⟩

/-- `PhaseOscillator::step`: `phase += phase_speed * time_delta`. -/
noncomputable def step (o : PhaseOscillator) (phase_speed time_delta : ℝ) : PhaseOscillator :=
  ⟨o.current_phase + phase_speed * time_delta⟩

end PhaseOscillator

/-- `dynamics.rs`: the configured coefficients of the contact dynamics. -/
structure Dynamics (α : Type) where
  gripper_k : α
  gripper_c : α
  dynamic_friction_coeff : α
  static_friction_coeff : α
  viscosity_friction_coeff : α
  grip_phase_threshold : α

namespace Dynamics

/-- `Dynamics::gripping_force`: a spring–damper toward the resting point in
x and z, nothing in y. -/
def gripping_force (dy : Dynamics ℚ) (resting_point current_point verocity : Coordinate ℚ) :
    Coordinate ℚ :=
  Coordinate.new
    (-dy.gripper_k * (current_point.x - resting_point.x) - dy.gripper_c * verocity.x)
    0
    (-dy.gripper_k * (current_point.z - resting_point.z) - dy.gripper_c * verocity.z)

/-- `Dynamics::shear_friction`: Coulomb dynamic + viscous friction while
moving, and static friction (cancelling up to saturation) at rest. -/
def shear_friction (dy : Dynamics ℚ) (verocity : Coordinate ℚ) (applied_force : Coordinate ℚ) :
    ℚ :=
  let normal_force := |min applied_force.z 0|
  if |verocity.x| > 0 then
    -(rsignum verocity.x) * dy.dynamic_friction_coeff * normal_force
      + dy.viscosity_friction_coeff * -verocity.x
  else
    let max_static_friction := dy.static_friction_coeff * normal_force
    if |applied_force.x| > max_static_friction then
      max_static_friction * -(rsignum applied_force.x)
    else
      -applied_force.x

/-- `Dynamics::calculate_somite_shear_force`. -/
def calculate_somite_shear_force (dy : Dynamics ℚ) (somite : Somite ℚ)
    (applied_force : Coordinate ℚ) (has_leg : Bool) : Coordinate ℚ :=
  if has_leg then
    match somite.get_gripping_point with
    | some grip_point => dy.gripping_force grip_point somite.position somite.verocity
    | none =>
      if somite.is_on_ground then
        Coordinate.new (dy.shear_friction somite.verocity applied_force) 0 0
      else
        Coordinate.zero
  else
    if somite.is_on_ground then
      Coordinate.new (dy.shear_friction somite.verocity applied_force) 0 0
    else
      Coordinate.zero

/-- `Dynamics::should_grip`: the gripper phase is in range, the somite is
on the ground, and it is not already gripping.  (The Rust body is
`if A && B && C { true } else { false }`, i.e. the conjunction itself.) -/
def should_grip (dy : Dynamics ℝ) (somite : Somite ℝ) (oscillator : PhaseOscillator) : Prop :=
  Real.sin oscillator.get_phase < dy.grip_phase_threshold ∧ somite.is_on_ground ∧
    ¬somite.is_gripping

/-- `Dynamics::should_release`: the gripper phase is out of range and the
somite is gripping. -/
def should_release (dy : Dynamics ℝ) (somite : Somite ℝ) (oscillator : PhaseOscillator) : Prop :=
  Real.sin oscillator.get_phase ≥ dy.grip_phase_threshold ∧ somite.is_gripping

end Dynamics

/-- `simulation_export.rs`: one object of the static roster. -/
structure Object where
  id : String
  rad : ℚ
  pos : ℚ × ℚ × ℚ

/-- `simulation_export.rs`: one body's position inside a frame. -/
structure ObjectPosition where
  id : String
  pos : ℚ × ℚ × ℚ

/-- `simulation_export.rs`: the export buffer; the Rust `HashMap<usize, _>`
of frames is modelled as the association list of its insertions (keys are
pairwise distinct because `add_frame` rejects any repeated index). -/
structure SimulationProc where
  objects : List Object
  frames : List (Nat × List ObjectPosition)

namespace SimulationProc

/-- `SimulationProc::new`. -/
def new (objects : List Object) : SimulationProc := ⟨objects, []⟩

/-- `SimulationProc::add_frame`: panics (`none`) when the new index is ≤
some already-stored key, otherwise inserts the frame. -/
def add_frame (sp : SimulationProc) (frame_order : Nat) (frame : List ObjectPosition) :
    Option SimulationProc :=
  if sp.frames.any (fun kv => frame_order ≤ kv.1) then none
  else some { sp with frames := sp.frames ++ [(frame_order, frame)] }

end SimulationProc

/-- `caterpillar_config.rs`: the flat record of physical constants. -/
structure Config where
  time_delta : ℚ
  somite_mass : ℚ
  somite_radius : ℚ
  normal_angular_velocity : ℚ
  rts_max_natural_length : ℚ
  rts_k : ℚ
  rts_c : ℚ
  rts_amp : ℚ
  sp_natural_length : ℚ
  sp_k : ℚ
  dp_c : ℚ
  horizon_ts_k0 : ℚ
  horizon_ts_k1 : ℚ
  vertical_ts_k0 : ℚ
  vertical_ts_k1 : ℚ
  vertical_ts_c : ℚ
  vertical_realtime_tunable_torsion_spirng_k : ℚ
  realtime_tunable_ts_rom_min : ℚ
  realtime_tunable_ts_rom_max : ℚ
  static_friction_coeff : ℚ
  dynamic_friction_coeff : ℚ
  viscosity_friction_coeff : ℚ
  tip_sub_static_friction_coeff : ℚ
  tip_sub_dynamic_friction_coeff : ℚ
  tip_sub_viscosity_friction_coeff : ℚ
  friction_switch_tan : ℚ
  gripping_phase_threshold : ℚ
  gripping_shear_stress_k : ℚ
  gripping_shear_stress_c : ℚ

namespace Config

/-- The name of every field of the `Config` struct, in declaration order
(straight from the struct definition in `caterpillar_config.rs`). -/
def fieldKeys : List String :=
  ["time_delta", "somite_mass", "somite_radius", "normal_angular_velocity",
   "rts_max_natural_length", "rts_k", "rts_c", "rts_amp", "sp_natural_length",
   "sp_k", "dp_c", "horizon_ts_k0", "horizon_ts_k1", "vertical_ts_k0",
   "vertical_ts_k1", "vertical_ts_c", "vertical_realtime_tunable_torsion_spirng_k",
   "realtime_tunable_ts_rom_min", "realtime_tunable_ts_rom_max",
   "static_friction_coeff", "dynamic_friction_coeff", "viscosity_friction_coeff",
   "tip_sub_static_friction_coeff", "tip_sub_dynamic_friction_coeff",
   "tip_sub_viscosity_friction_coeff", "friction_switch_tan",
   "gripping_phase_threshold", "gripping_shear_stress_k", "gripping_shear_stress_c"]

/-- The keys `Config::set` actually accepts, in match-arm order: every
field key except `time_delta`. -/
def settableKeys : List String := fieldKeys.tail

/-- `Config::set`: updates the field named by `key`, panicking (`none`)
on any other key.  There is no arm for `"time_delta"`. -/
def set (c : Config) (key : String) (val : ℚ) : Option Config :=
  match key with
  | "somite_mass" => some { c with somite_mass := val }
  | "somite_radius" => some { c with somite_radius := val }
  | "normal_angular_velocity" => some { c with normal_angular_velocity := val }
  | "rts_max_natural_length" => some { c with rts_max_natural_length := val }
  | "rts_k" => some { c with rts_k := val }
  | "rts_c" => some { c with rts_c := val }
  | "rts_amp" => some { c with rts_amp := val }
  | "sp_natural_length" => some { c with sp_natural_length := val }
  | "sp_k" => some { c with sp_k := val }
  | "dp_c" => some { c with dp_c := val }
  | "horizon_ts_k0" => some { c with horizon_ts_k0 := val }
  | "horizon_ts_k1" => some { c with horizon_ts_k1 := val }
  | "vertical_ts_k0" => some { c with vertical_ts_k0 := val }
  | "vertical_ts_k1" => some { c with vertical_ts_k1 := val }
  | "vertical_ts_c" => some { c with vertical_ts_c := val }
  | "vertical_realtime_tunable_torsion_spirng_k" =>
      some { c with vertical_realtime_tunable_torsion_spirng_k := val }
  | "realtime_tunable_ts_rom_min" => some { c with realtime_tunable_ts_rom_min := val }
  | "realtime_tunable_ts_rom_max" => some { c with realtime_tunable_ts_rom_max := val }
  | "static_friction_coeff" => some { c with static_friction_coeff := val }
  | "dynamic_friction_coeff" => some { c with dynamic_friction_coeff := val }
  | "viscosity_friction_coeff" => some { c with viscosity_friction_coeff := val }
  | "tip_sub_static_friction_coeff" => some { c with tip_sub_static_friction_coeff := val }
  | "tip_sub_dynamic_friction_coeff" => some { c with tip_sub_dynamic_friction_coeff := val }
  | "tip_sub_viscosity_friction_coeff" => some { c with tip_sub_viscosity_friction_coeff := val }
  | "friction_switch_tan" => some { c with friction_switch_tan := val }
  | "gripping_phase_threshold" => some { c with gripping_phase_threshold := val }
  | "gripping_shear_stress_k" => some { c with gripping_shear_stress_k := val }
  | "gripping_shear_stress_c" => some { c with gripping_shear_stress_c := val }
  | _ => none

/-- `impl Default for Config` (`time_delta = 0.01`, etc.; the two
irrational defaults, multiples of π, are irrelevant to every claim and are
represented by their rational coefficient times a fixed symbol-free
stand-in value 314159/100000 for π). -/
def defaultConfig : Config :=
  { time_delta := 1/100, somite_mass := 1, somite_radius := 1/10,
    normal_angular_velocity := 314159/100000,
    rts_max_natural_length := 1/10, rts_k := 100, rts_c := 10, rts_amp := 5/100,
    sp_natural_length := 1/10, sp_k := 100, dp_c := 10,
    horizon_ts_k0 := 0, horizon_ts_k1 := 0, vertical_ts_k0 := 0,
    vertical_ts_k1 := 0, vertical_ts_c := 0,
    vertical_realtime_tunable_torsion_spirng_k := 10,
    realtime_tunable_ts_rom_min := -(3/10) * (314159/100000),
    realtime_tunable_ts_rom_max := (5/10) * (314159/100000),
    static_friction_coeff := 10, dynamic_friction_coeff := 7,
    viscosity_friction_coeff := 5,
    tip_sub_static_friction_coeff := 1, tip_sub_dynamic_friction_coeff := 7/10,
    tip_sub_viscosity_friction_coeff := 1/2, friction_switch_tan := 7/10,
    gripping_phase_threshold := (5/4) * (314159/100000),
    gripping_shear_stress_k := 500, gripping_shear_stress_c := 10 }

end Config

end Caterpillar

namespace Caterpillar

/-- C5: `differentiate(p, c, 0)` is the explicit undefined result `none`,
distinct from every numeric value, and for `dt ≠ 0` it is `(c - p) / dt`. -/
theorem differentiate_spec (p c dt : ℚ) (h : dt ≠ 0) :
    differentiate p c 0 = none ∧ differentiate p c dt = some ((c - p) / dt) ∧
      ∀ v : ℚ, differentiate p c 0 ≠ some v := by
  refine ⟨rfl, ?_, fun v hv => by simp [differentiate] at hv⟩
  simp [differentiate, h]

/-- C5 witness: `differentiate(1, 3, 2) = 1` and `differentiate(1, 3, 0)`
is undefined. -/
theorem differentiate_spec_witness :
    differentiate 1 3 0 = none ∧ differentiate 1 3 2 = some ((3 - 1) / 2) ∧
      ∀ v : ℚ, differentiate 1 3 0 ≠ some v :=
  differentiate_spec 1 3 2 (by norm_num)

/-- C8: `Somite::grip` is idempotent on the anchor: gripping while already
gripping (with no intervening release) leaves the gripping point unchanged,
even after the somite has moved; concretely a somite at (0,0,4) that grips,
moves to (1,0,4) and grips again still has anchor (0,0,4). -/
theorem grip_idempotent :
    (∀ (s : Somite ℚ) (p : Coordinate ℚ),
        (((s.grip).set_position p).grip).gripping_point = (s.grip).gripping_point) ∧
      (∀ (s : Somite ℚ), s.is_gripping → (s.grip).gripping_point = s.gripping_point) ∧
      ((((Somite.new_still_somite (1 : ℚ) 2 ⟨0, 0, 4⟩).grip).set_position
          ⟨1, 0, 4⟩).grip).gripping_point = ⟨0, 0, 4⟩ := by
  refine ⟨fun s p => ?_, fun s hs => ?_, by decide⟩
  · cases hflag : s.gripping_flag <;>
      simp [Somite.grip, Somite.set_position, hflag]
  · simp only [Somite.is_gripping] at hs
    simp [Somite.grip, hs]

/-- C7: `SimulationProc::add_frame(index, frame)` fails exactly when `index`
is ≤ some already-stored frame index (rejecting both out-of-order and
duplicate indices) and otherwise stores the frame; `add_frame(1)` then
`add_frame(0)` fails, and `add_frame(0)` twice fails. -/
theorem add_frame_monotone :
    (∀ (sp : SimulationProc) (i : Nat) (f : List ObjectPosition),
        (sp.add_frame i f).isSome ↔ ∀ kv ∈ sp.frames, kv.1 < i) ∧
      (∀ (sp : SimulationProc) (i : Nat) (f : List ObjectPosition),
          (∀ kv ∈ sp.frames, kv.1 < i) →
          sp.add_frame i f = some { sp with frames := sp.frames ++ [(i, f)] }) ∧
      (((SimulationProc.new []).add_frame 1 []).bind (fun s => s.add_frame 0 []) = none) ∧
      (((SimulationProc.new []).add_frame 0 []).bind (fun s => s.add_frame 0 []) = none) := by
  refine ⟨fun sp i f => ?_, fun sp i f h => ?_, rfl, rfl⟩
  · constructor
    · intro hs kv hkv
      by_contra hlt
      have hany : sp.frames.any (fun kv => i ≤ kv.1) = true :=
        List.any_eq_true.mpr ⟨kv, hkv, by simpa using not_lt.mp hlt⟩
      simp [SimulationProc.add_frame, hany] at hs
    · intro h
      have hany : sp.frames.any (fun kv => i ≤ kv.1) = false := by
        simp only [List.any_eq_false, decide_eq_true_eq]
        exact fun kv hkv => not_le.mpr (h kv hkv)
      simp [SimulationProc.add_frame, hany]
  · have : sp.frames.any (fun kv => i ≤ kv.1) = false := by
      simp only [List.any_eq_false, decide_eq_true_eq]
      exact fun kv hkv => not_le.mpr (h kv hkv)
    simp [SimulationProc.add_frame, this]

/-- C9 counterexample: `"time_delta"` names a `Config` field (it is in the
struct's field list), yet `Config::set("time_delta", v)` is a fatal error —
the claim that every field-naming key succeeds is false. -/
theorem config_set_time_delta_rejected :
    "time_delta" ∈ Config.fieldKeys ∧
      Config.defaultConfig.set "time_delta" 1 = none := by
  exact ⟨by simp [Config.fieldKeys], rfl⟩

theorem get_heightGo_eq_stepLookup (x : ℚ) (cur : List (ℚ × ℚ)) :
    ∀ (i : Nat) (hprev : ℚ) (hs : List ℚ),
      listGetI hs ((i : Int) - 1) = some hprev →
      hs.drop i = cur.map Prod.snd →
      PathHeights.get_heightGo hs x i (cur.map Prod.fst) =
        some (PathHeights.stepLookup x hprev cur) := by
  induction cur with
  | nil =>
    intro i hprev hs hget hdrop
    simp only [List.map_nil, PathHeights.get_heightGo, PathHeights.stepLookup]
    simp only [listGetI] at hget
    split at hget
    case isFalse => exact absurd hget (by simp)
    case isTrue hi =>
      have hi1 : 1 ≤ i := by omega
      have htn : ((i : Int) - 1).toNat = i - 1 := by omega
      rw [htn] at hget
      have hlt : i - 1 < hs.length := List.get?_eq_some.mp hget |>.1
      have hle : hs.length ≤ i := by
        have hnil : hs.drop i = [] := by simpa using hdrop
        exact List.drop_eq_nil_iff.mp hnil
      have hlen : hs.length = i := by omega
      rw [List.getLast?_eq_get?, hlen]
      exact hget
  | cons e rest ih =>
    intro i hprev hs hget hdrop
    simp only [List.map_cons, PathHeights.get_heightGo, PathHeights.stepLookup]
    by_cases hgt : e.1 > x
    · simp only [if_pos hgt]
      exact hget
    · simp only [if_neg hgt]
      apply ih (i + 1) e.2 hs
      · have : ((i : Int) + 1 - 1) = (i : Int) := by ring
        simp only [Nat.cast_add, Nat.cast_one, this, listGetI, Int.toNat_ofNat]
        have h0 : hs.get? i = some e.2 := by
          have := List.get?_drop hs i 0
          rw [Nat.add_zero] at this
          rw [← this, hdrop]
          rfl
        simpa using h0
      · have : hs.drop (i + 1) = (hs.drop i).tail := (List.tail_drop hs i).symm
        rw [this, hdrop]
        rfl

theorem stepLookup_eq_specLast (x : ℚ) (cur : List (ℚ × ℚ)) :
    ∀ hprev : ℚ,
      (cur.map Prod.fst).Sorted (· < ·) →
      PathHeights.stepLookup x hprev cur =
        (((cur.filter (fun e => decide (e.1 ≤ x))).getLast?).map Prod.snd).getD hprev := by
  induction cur with
  | nil => intro hprev _; simp [PathHeights.stepLookup]
  | cons e rest ih =>
    intro hprev hsorted
    rw [List.map_cons, List.sorted_cons] at hsorted
    obtain ⟨hlt, hsorted'⟩ := hsorted
    by_cases hgt : e.1 > x
    · have hfe : decide (e.1 ≤ x) = false := by simp; exact hgt
      have hrest : rest.filter (fun e => decide (e.1 ≤ x)) = [] := by
        apply List.filter_eq_nil.mpr
        intro a ha
        have : e.1 < a.1 := hlt a.1 (List.mem_map_of_mem Prod.fst ha)
        simp only [decide_eq_true_eq, not_le]
        linarith
      simp [PathHeights.stepLookup, if_pos hgt, List.filter_cons, hfe, hrest]
    · have hfe : decide (e.1 ≤ x) = true := by simpa using not_lt.mp hgt
      rw [List.filter_cons, if_pos (by simp [hfe])]
      have lhs_eq : PathHeights.stepLookup x hprev (e :: rest) =
          PathHeights.stepLookup x e.2 rest := by
        simp [PathHeights.stepLookup, if_neg hgt]
      rw [lhs_eq, ih e.2 hsorted']
      cases hfil : rest.filter (fun e => decide (e.1 ≤ x)) with
      | nil => simp
      | cons a t =>
        rw [List.getLast?_cons_cons]
        cases hl : (a :: t).getLast? with
        | none => exact absurd (List.getLast?_eq_none_iff.mp hl) (by simp)
        | some y => simp [hl]

/-- C6: for every terrain profile whose start points are strictly
increasing and begin at the default entry 0 (with as many heights as start
points), `get_height x` for `x ≥ 0` is the height of the last entry whose
start point is ≤ x — the step function written in the spec. -/
theorem get_height_spec (ph : PathHeights) (x : ℚ)
    (hlen : ph.start_points.length = ph.heights.length)
    (hsorted : ph.start_points.Sorted (· < ·))
    (hhead : ph.start_points.head? = some 0)
    (hx : 0 ≤ x) :
    ph.get_height x = PathHeights.specLastHeight (ph.start_points.zip ph.heights) x := by
  obtain ⟨sp, hs⟩ := ph
  simp only at hlen hsorted hhead ⊢
  cases sp with
  | nil => simp at hhead
  | cons s0 spt =>
    have hs0 : s0 = 0 := by simpa using hhead
    subst hs0
    cases hs with
    | nil => simp at hlen
    | cons h0 hst =>
      have hlen' : spt.length = hst.length := by simpa using hlen
      -- the loop's tail entries
      set cur := spt.zip hst with hcur
      have hfst : cur.map Prod.fst = spt := List.map_fst_zip spt hst (le_of_eq hlen')
      have hsnd : cur.map Prod.snd = hst := List.map_snd_zip spt hst (ge_of_eq hlen')
      have hgo : PathHeights.get_heightGo (h0 :: hst) x 0 ((0 : ℚ) :: spt) =
          some (PathHeights.stepLookup x h0 cur) := by
        have hstep : PathHeights.get_heightGo (h0 :: hst) x 0 ((0 : ℚ) :: spt) =
            PathHeights.get_heightGo (h0 :: hst) x 1 spt := by
          simp [PathHeights.get_heightGo, not_lt.mpr hx]
        rw [hstep, ← hfst]
        apply get_heightGo_eq_stepLookup x cur 1 h0 (h0 :: hst)
        · simp [listGetI]
        · simpa using hsnd.symm
      have hsortcur : (cur.map Prod.fst).Sorted (· < ·) := by
        rw [hfst]
        exact (List.sorted_cons.mp hsorted).2
      have hget : PathHeights.get_height ⟨(0 : ℚ) :: spt, h0 :: hst⟩ x =
          some (((cur.filter (fun e => decide (e.1 ≤ x))).getLast?.map Prod.snd).getD h0) := by
        simp only [PathHeights.get_height, List.head?_cons]
        rw [if_neg (not_lt.mpr hx), hgo, stepLookup_eq_specLast x cur h0 hsortcur]
      rw [hget]
      have hzip : ((0 : ℚ) :: spt).zip (h0 :: hst) = ((0 : ℚ), h0) :: cur := by
        simp [hcur]
      rw [hzip, PathHeights.specLastHeight, List.filter_cons,
        if_pos (by simpa using hx)]
      cases hfil : cur.filter (fun e => decide (e.1 ≤ x)) with
      | nil => simp
      | cons a t =>
        rw [List.getLast?_cons_cons]
        cases hl : (a :: t).getLast? with
        | none => exact absurd (List.getLast?_eq_none_iff.mp hl) (by simp)
        | some y => simp [hl]

/-- C6 witness: the profile `{0 ↦ 0, 0.5 ↦ 0.7}` satisfies the step-function
property, and concretely `get_height(0.3) = 0`, `get_height(0.6) = 0.7`. -/
theorem get_height_spec_witness :
    (PathHeights.get_height ⟨[0, 1/2], [0, 7/10]⟩ (3/10) =
        PathHeights.specLastHeight (([(0 : ℚ), 1/2]).zip [(0 : ℚ), 7/10]) (3/10)) ∧
      PathHeights.get_height ⟨[0, 1/2], [0, 7/10]⟩ (3/10) = some 0 ∧
      PathHeights.get_height ⟨[0, 1/2], [0, 7/10]⟩ (6/10) = some (7/10) :=
  ⟨get_height_spec ⟨[0, 1/2], [0, 7/10]⟩ (3/10) rfl
      (by norm_num [List.sorted_cons]) rfl (by norm_num),
    by norm_num [PathHeights.get_height, PathHeights.get_heightGo, listGetI],
    by norm_num [PathHeights.get_height, PathHeights.get_heightGo, listGetI]⟩

/-- C4: refuted — `PathHeights::is_on_ground` is not total.  On the default
profile `{0 ↦ 0}` (no `set` calls at all), a somite of radius 1 whose centre
sits at height 1/2 (below the floor by more than the stuck epsilon) takes
the "stuck" branch, which indexes `heights[len - 2]` with `len = 1`: the
`usize` subtraction underflows and the indexing panics, whatever the
somite-level contact test `g` would have said.  The code's own comments
("thus i>1", "at least, 0 is set") assert this cannot happen. -/
theorem is_on_ground_stuck_branch_panics (g : Somite ℚ → ℚ → Bool) :
    PathHeights.new.is_on_ground g (Somite.new_still_somite 1 1 ⟨0, 0, 1/2⟩) = none ∧
      PathHeights.new.set (1/2) (7/10) =
        Except.ok (⟨[0, 1/2], [0, 7/10]⟩ : PathHeights) ∧
      (PathHeights.is_on_ground ⟨[0, 1/2], [0, 7/10]⟩ g
        (Somite.new_still_somite 1 1 ⟨3/10, 0, 1/2⟩)) = none := by
  refine ⟨?_, by simp [PathHeights.set, PathHeights.new], ?_⟩
  · simp [PathHeights.is_on_ground, PathHeights.new, PathHeights.is_on_groundGo,
      listGetI, Somite.new_still_somite, Somite.new, STUCK_EPSILON]
    norm_num
  · simp [PathHeights.is_on_ground, PathHeights.is_on_groundGo, listGetI,
      Somite.new_still_somite, Somite.new, STUCK_EPSILON]
    norm_num

set_option maxRecDepth 65536 in
/-- C9 (amended): `Config::set(key, val)` succeeds exactly for the 28 keys
naming `Config` fields other than `time_delta` (each updating its field) and
is a fatal error for every other key, `"time_delta"` included. -/
theorem config_set_spec (c : Config) (v : ℚ) :
    (∀ key : String, ((c.set key v).isSome ↔ key ∈ Config.settableKeys)) ∧
      c.set "time_delta" v = none ∧
      c.set "somite_mass" v = some { c with somite_mass := v } ∧
      c.set "somite_radius" v = some { c with somite_radius := v } ∧
      c.set "normal_angular_velocity" v = some { c with normal_angular_velocity := v } ∧
      c.set "rts_max_natural_length" v = some { c with rts_max_natural_length := v } ∧
      c.set "rts_k" v = some { c with rts_k := v } ∧
      c.set "rts_c" v = some { c with rts_c := v } ∧
      c.set "rts_amp" v = some { c with rts_amp := v } ∧
      c.set "sp_natural_length" v = some { c with sp_natural_length := v } ∧
      c.set "sp_k" v = some { c with sp_k := v } ∧
      c.set "dp_c" v = some { c with dp_c := v } ∧
      c.set "horizon_ts_k0" v = some { c with horizon_ts_k0 := v } ∧
      c.set "horizon_ts_k1" v = some { c with horizon_ts_k1 := v } ∧
      c.set "vertical_ts_k0" v = some { c with vertical_ts_k0 := v } ∧
      c.set "vertical_ts_k1" v = some { c with vertical_ts_k1 := v } ∧
      c.set "vertical_ts_c" v = some { c with vertical_ts_c := v } ∧
      c.set "vertical_realtime_tunable_torsion_spirng_k" v =
        some { c with vertical_realtime_tunable_torsion_spirng_k := v } ∧
      c.set "realtime_tunable_ts_rom_min" v = some { c with realtime_tunable_ts_rom_min := v } ∧
      c.set "realtime_tunable_ts_rom_max" v = some { c with realtime_tunable_ts_rom_max := v } ∧
      c.set "static_friction_coeff" v = some { c with static_friction_coeff := v } ∧
      c.set "dynamic_friction_coeff" v = some { c with dynamic_friction_coeff := v } ∧
      c.set "viscosity_friction_coeff" v = some { c with viscosity_friction_coeff := v } ∧
      c.set "tip_sub_static_friction_coeff" v =
        some { c with tip_sub_static_friction_coeff := v } ∧
      c.set "tip_sub_dynamic_friction_coeff" v =
        some { c with tip_sub_dynamic_friction_coeff := v } ∧
      c.set "tip_sub_viscosity_friction_coeff" v =
        some { c with tip_sub_viscosity_friction_coeff := v } ∧
      c.set "friction_switch_tan" v = some { c with friction_switch_tan := v } ∧
      c.set "gripping_phase_threshold" v = some { c with gripping_phase_threshold := v } ∧
      c.set "gripping_shear_stress_k" v = some { c with gripping_shear_stress_k := v } ∧
      c.set "gripping_shear_stress_c" v = some { c with gripping_shear_stress_c := v } := by
  refine ⟨fun key => ?_, rfl, rfl, rfl, rfl, rfl, rfl, rfl, rfl, rfl, rfl, rfl, rfl,
    rfl, rfl, rfl, rfl, rfl, rfl, rfl, rfl, rfl, rfl, rfl, rfl, rfl, rfl, rfl, rfl, rfl⟩
  unfold Config.set
  split <;> simp_all [Config.settableKeys, Config.fieldKeys]

/-- C2: `should_grip` holds exactly when `sin(phase) < grip_threshold`, the
somite is in ground contact, and it is not already gripping;
`should_release` holds exactly when `sin(phase) ≥ grip_threshold` and the
somite is gripping; otherwise no transition fires — in particular an
airborne gripped somite is never released while `sin(phase)` is below the
threshold. -/
theorem should_grip_release_spec (dy : Dynamics ℝ) (s : Somite ℝ) (o : PhaseOscillator) :
    (dy.should_grip s o ↔
        Real.sin o.get_phase < dy.grip_phase_threshold ∧ s.is_on_ground ∧ ¬s.is_gripping) ∧
      (dy.should_release s o ↔
        Real.sin o.get_phase ≥ dy.grip_phase_threshold ∧ s.is_gripping) ∧
      (¬s.is_on_ground → s.is_gripping →
        Real.sin o.get_phase < dy.grip_phase_threshold →
        ¬dy.should_grip s o ∧ ¬dy.should_release s o) := by
  refine ⟨Iff.rfl, Iff.rfl, fun hair hgrip hsin => ⟨?_, ?_⟩⟩
  · exact fun h => hair h.2.1
  · exact fun h => absurd h.1 (not_le.mpr hsin)

theorem min_zero_abs_eq_max (a : ℚ) : |min a 0| = max 0 (-a) := by
  rcases le_total a 0 with h | h
  · rw [min_eq_left h, abs_of_nonpos h, max_eq_right (by linarith)]
  · rw [min_eq_right h, abs_zero, max_eq_left (by linarith)]

/-- C3: for an on-ground, non-gripping somite at rest horizontally, the
shear force is purely horizontal with, writing `N = max(0, -F.z)`: the
saturated value `-sign(F.x) * static_coeff * N` when `|F.x|` exceeds the
maximum static friction, and exactly `-F.x` otherwise. -/
theorem static_friction_spec (dy : Dynamics ℚ) (s : Somite ℚ) (F : Coordinate ℚ)
    (has_leg : Bool) (hg : s.is_on_ground) (hng : ¬s.is_gripping) (hv : s.verocity.x = 0) :
    dy.calculate_somite_shear_force s F has_leg =
      Coordinate.new
        (if |F.x| > dy.static_friction_coeff * max 0 (-F.z) then
          -(rsignum F.x) * (dy.static_friction_coeff * max 0 (-F.z))
         else -F.x) 0 0 := by
  have hflag : s.gripping_flag = false := by
    simpa [Somite.is_gripping] using hng
  have hshear : dy.shear_friction s.verocity F =
      if |F.x| > dy.static_friction_coeff * max 0 (-F.z) then
        -(rsignum F.x) * (dy.static_friction_coeff * max 0 (-F.z))
      else -F.x := by
    rw [Dynamics.shear_friction]
    simp only [hv, abs_zero, min_zero_abs_eq_max, gt_iff_lt, lt_self_iff_false, if_false]
    by_cases hsat : dy.static_friction_coeff * max 0 (-F.z) < |F.x|
    · rw [if_pos hsat, if_pos hsat]
      ring
    · rw [if_neg hsat, if_neg hsat]
  cases has_leg with
  | false =>
    simp only [Dynamics.calculate_somite_shear_force, Bool.false_eq_true, if_false,
      if_pos hg, hshear]
  | true =>
    simp only [Dynamics.calculate_somite_shear_force, if_true,
      Somite.get_gripping_point, hflag, Bool.false_eq_true, if_false, if_pos hg, hshear]

/-- C3 witness: static coefficient 3, applied force (20, 0, -6), somite at
rest on the ground: the friction saturates at magnitude 3·6 = 18 opposing
the applied force. -/
theorem static_friction_spec_witness :
    Dynamics.calculate_somite_shear_force ⟨0, 0, 0, 3, 0, 0⟩
        ⟨⟨0, 0, 1⟩, ⟨0, 0, 0⟩, ⟨0, 0, 0⟩, 1, 1, false, ⟨0, 0, 0⟩⟩ ⟨20, 0, -6⟩ true =
      Coordinate.new (-18) 0 0 := by
  rw [static_friction_spec ⟨0, 0, 0, 3, 0, 0⟩
    ⟨⟨0, 0, 1⟩, ⟨0, 0, 0⟩, ⟨0, 0, 0⟩, 1, 1, false, ⟨0, 0, 0⟩⟩ ⟨20, 0, -6⟩ true
    (by norm_num [Somite.is_on_ground]) (by simp [Somite.is_gripping]) rfl]
  norm_num [rsignum]

/-- C10: for a gripping somite with a leg, the shear force is the
spring–damper pull toward the anchor in x and z, exactly 0 in y, and is
independent of the applied-force argument. -/
theorem gripping_force_vertical_spec (dy : Dynamics ℚ) (s : Somite ℚ)
    (F F2 : Coordinate ℚ) (hgrip : s.is_gripping) :
    dy.calculate_somite_shear_force s F true =
      Coordinate.new
        (-dy.gripper_k * (s.position.x - s.gripping_point.x) - dy.gripper_c * s.verocity.x)
        0
        (-dy.gripper_k * (s.position.z - s.gripping_point.z) - dy.gripper_c * s.verocity.z) ∧
      dy.calculate_somite_shear_force s F true = dy.calculate_somite_shear_force s F2 true := by
  have hflag : s.gripping_flag = true := hgrip
  have h : ∀ G : Coordinate ℚ, dy.calculate_somite_shear_force s G true =
      dy.gripping_force s.gripping_point s.position s.verocity := by
    intro G
    simp only [Dynamics.calculate_somite_shear_force, if_true,
      Somite.get_gripping_point, hflag]
  rw [h F, h F2]
  exact ⟨rfl, rfl⟩

theorem sumsq_nonneg (a : Coordinate ℝ) : 0 ≤ a.sumsq := by
  simp only [Coordinate.sumsq]
  positivity

theorem sumsq_eq_zero_iff (a : Coordinate ℝ) : a.sumsq = 0 ↔ a = Coordinate.zero := by
  obtain ⟨a1, a2, a3⟩ := a
  simp only [Coordinate.sumsq, Coordinate.zero, Coordinate.mk.injEq]
  constructor
  · intro h
    refine ⟨?_, ?_, ?_⟩ <;> nlinarith [sq_nonneg a1, sq_nonneg a2, sq_nonneg a3]
  · rintro ⟨rfl, rfl, rfl⟩
    ring

theorem norm_pos_of_ne_zero (a : Coordinate ℝ) (h : a ≠ Coordinate.zero) : 0 < a.norm := by
  have h1 : 0 < a.sumsq :=
    lt_of_le_of_ne (sumsq_nonneg a) (fun he => h ((sumsq_eq_zero_iff a).mp he.symm))
  exact Real.sqrt_pos.mpr h1

theorem sumsq_eq_one_of_norm_eq_one (a : Coordinate ℝ) (h : a.norm = 1) : a.sumsq = 1 := by
  have h0 : 0 ≤ a.sumsq := sumsq_nonneg a
  have h2 : Real.sqrt a.sumsq = 1 := h
  nlinarith [Real.sq_sqrt h0]

theorem sumsq_cross (a b : Coordinate ℝ) :
    (a.cross_product b).sumsq = a.sumsq * b.sumsq - a.inner_product b ^ 2 := by
  obtain ⟨a1, a2, a3⟩ := a
  obtain ⟨b1, b2, b3⟩ := b
  simp only [Coordinate.cross_product, Coordinate.sumsq, Coordinate.inner_product]
  ring

theorem inner_project_eq_zero (s v : Coordinate ℝ) (hs : s.sumsq = 1) :
    s.inner_product (v - s.smul (s.inner_product v)) = 0 := by
  obtain ⟨s1, s2, s3⟩ := s
  obtain ⟨v1, v2, v3⟩ := v
  simp only [Coordinate.sumsq] at hs
  simp only [Coordinate.inner_product, Coordinate.sub_def, Coordinate.smul]
  linear_combination (-(s1 * v1 + s2 * v2 + s3 * v3)) * hs

theorem smul_ne_zero_coord (a : Coordinate ℝ) (c : ℝ) (ha : a ≠ Coordinate.zero)
    (hc : c ≠ 0) : a.smul c ≠ Coordinate.zero := by
  intro h
  apply ha
  obtain ⟨a1, a2, a3⟩ := a
  simp only [Coordinate.smul, Coordinate.zero, Coordinate.mk.injEq] at h ⊢
  obtain ⟨h1, h2, h3⟩ := h
  exact ⟨(mul_eq_zero.mp h1).resolve_right hc, (mul_eq_zero.mp h2).resolve_right hc,
    (mul_eq_zero.mp h3).resolve_right hc⟩

theorem divs_ne_zero_coord (a : Coordinate ℝ) (c : ℝ) (ha : a ≠ Coordinate.zero)
    (hc : c ≠ 0) : a.divs c ≠ Coordinate.zero := by
  intro h
  apply ha
  obtain ⟨a1, a2, a3⟩ := a
  simp only [Coordinate.divs, Coordinate.zero, Coordinate.mk.injEq] at h ⊢
  obtain ⟨h1, h2, h3⟩ := h
  exact ⟨(div_eq_zero_iff.mp h1).resolve_right hc, (div_eq_zero_iff.mp h2).resolve_right hc,
    (div_eq_zero_iff.mp h3).resolve_right hc⟩

theorem normal_vector_ne_zero (t : TorsionSpring) (v : Coordinate ℝ)
    (hunit : t.standard_vector.norm = 1) (hv : t.project v ≠ Coordinate.zero) :
    t.normal_vector v ≠ Coordinate.zero := by
  have hs1 : t.standard_vector.sumsq = 1 := sumsq_eq_one_of_norm_eq_one _ hunit
  have hinner : t.standard_vector.inner_product (t.project v) = 0 :=
    inner_project_eq_zero t.standard_vector v hs1
  have hwpos : 0 < (t.project v).sumsq :=
    lt_of_le_of_ne (sumsq_nonneg _) (fun he => hv ((sumsq_eq_zero_iff _).mp he.symm))
  have hcross : (t.standard_vector.cross_product (t.project v)).sumsq = (t.project v).sumsq := by
    rw [sumsq_cross, hinner, hs1]
    ring
  have hcrossne : t.standard_vector.cross_product (t.project v) ≠ Coordinate.zero := by
    intro h
    rw [h] at hcross
    have : (Coordinate.zero : Coordinate ℝ).sumsq = 0 := by
      simp [Coordinate.sumsq, Coordinate.zero]
    rw [this] at hcross
    exact absurd hcross.symm (ne_of_gt hwpos)
  exact divs_ne_zero_coord _ _ hcrossne (ne_of_gt (norm_pos_of_ne_zero _ hv))

/-- C1 counterexample: with k0 = 1, unit axis (0,0,1) and the non-degenerate
collinear-free triple base (0,0,0), center (1,0,0), tip (2,0,0), the
discrepancy Δ = -1 has |Δ| ≥ ε yet `force_on_discrepancy` returns the zero
pair: the guard compares the signed Δ with ε, not |Δ|. -/
theorem force_on_discrepancy_negative_counterexample :
    EPSILON ≤ |(-1 : ℝ)| ∧
      TorsionSpring.project ⟨1, 0, ⟨0, 0, 1⟩⟩
          ((⟨2, 0, 0⟩ : Coordinate ℝ) - ⟨1, 0, 0⟩) ≠ Coordinate.zero ∧
      TorsionSpring.project ⟨1, 0, ⟨0, 0, 1⟩⟩
          ((⟨1, 0, 0⟩ : Coordinate ℝ) - ⟨0, 0, 0⟩) ≠ Coordinate.zero ∧
      TorsionSpring.force_on_discrepancy ⟨1, 0, ⟨0, 0, 1⟩⟩
          ⟨0, 0, 0⟩ ⟨1, 0, 0⟩ ⟨2, 0, 0⟩ (-1) = (Coordinate.zero, Coordinate.zero) := by
  refine ⟨by rw [EPSILON]; norm_num, ?_, ?_, ?_⟩
  · simp only [TorsionSpring.project, Coordinate.sub_def, Coordinate.inner_product,
      Coordinate.smul, Coordinate.zero, ne_eq, Coordinate.mk.injEq]
    norm_num
  · simp only [TorsionSpring.project, Coordinate.sub_def, Coordinate.inner_product,
      Coordinate.smul, Coordinate.zero, ne_eq, Coordinate.mk.injEq]
    norm_num
  · rw [TorsionSpring.force_on_discrepancy]
    rw [if_pos (by rw [EPSILON]; norm_num)]

/-- C1 (amended): under positive k0, nonnegative k1, a unit axis and a
non-degenerate tip-side projection, `force_on_discrepancy` returns the
zero pair exactly when the SIGNED discrepancy is < ε (so every negative
discrepancy yields zero force); for Δ ≥ ε it returns the force pair scaled
by the effective stiffness k0 + k1·|Δ|. -/
theorem force_on_discrepancy_signed_guard (t : TorsionSpring)
    (base center tip : Coordinate ℝ) (d : ℝ)
    (hk0 : 0 < t.spring_constant_k0) (hk1 : 0 ≤ t.spring_constant_k1)
    (hunit : t.standard_vector.norm = 1)
    (hct : t.project (tip - center) ≠ Coordinate.zero) :
    (t.force_on_discrepancy base center tip d = (Coordinate.zero, Coordinate.zero) ↔
        d < EPSILON) ∧
      (EPSILON ≤ d →
        t.force_on_discrepancy base center tip d =
          (((t.normal_vector (tip - center)).smul
              (t.spring_constant_k0 + t.spring_constant_k1 * |d|)).smul d,
            ((t.normal_vector (center - base)).smul
              (t.spring_constant_k0 + t.spring_constant_k1 * |d|)).smul d)) := by
  have heps : (0 : ℝ) < EPSILON := by rw [EPSILON]; norm_num
  constructor
  · constructor
    · intro h
      by_contra hd
      have hd' : EPSILON ≤ d := not_lt.mp hd
      have hdpos : d ≠ 0 := ne_of_gt (lt_of_lt_of_le heps hd')
      have hk : t.calculate_spring_constant d ≠ 0 := by
        rw [TorsionSpring.calculate_spring_constant]
        positivity
      have hn : t.normal_vector (tip - center) ≠ Coordinate.zero :=
        normal_vector_ne_zero t _ hunit hct
      have hfst : ((t.normal_vector (tip - center)).smul
          (t.calculate_spring_constant d)).smul d = Coordinate.zero := by
        have := congrArg Prod.fst h
        rw [TorsionSpring.force_on_discrepancy] at this
        rw [if_neg hd] at this
        exact this
      exact smul_ne_zero_coord _ _ (smul_ne_zero_coord _ _ hn hk) hdpos hfst
    · intro h
      rw [TorsionSpring.force_on_discrepancy, if_pos h]
  · intro h
    rw [TorsionSpring.force_on_discrepancy, if_neg (not_lt.mpr h),
      TorsionSpring.calculate_spring_constant]

/-- C1 witness: k0 = 1, k1 = 0, axis (0,0,1), base (0,0,0), center (1,0,0),
tip (1,1,0), discrepancy 1 ≥ ε: the zero pair is returned iff 1 < ε (it is
not), and the force pair carries stiffness 1 + 0·|1|. -/
theorem force_on_discrepancy_signed_guard_witness :
    (TorsionSpring.force_on_discrepancy ⟨1, 0, ⟨0, 0, 1⟩⟩
        ⟨0, 0, 0⟩ ⟨1, 0, 0⟩ ⟨1, 1, 0⟩ 1 = (Coordinate.zero, Coordinate.zero) ↔
        (1 : ℝ) < EPSILON) ∧
      (EPSILON ≤ (1 : ℝ) →
        TorsionSpring.force_on_discrepancy ⟨1, 0, ⟨0, 0, 1⟩⟩
            ⟨0, 0, 0⟩ ⟨1, 0, 0⟩ ⟨1, 1, 0⟩ 1 =
          ((TorsionSpring.normal_vector ⟨1, 0, ⟨0, 0, 1⟩⟩
              ((⟨1, 1, 0⟩ : Coordinate ℝ) - ⟨1, 0, 0⟩)).smul (1 + 0 * |(1 : ℝ)|) |>.smul 1,
            (TorsionSpring.normal_vector ⟨1, 0, ⟨0, 0, 1⟩⟩
              ((⟨1, 0, 0⟩ : Coordinate ℝ) - ⟨0, 0, 0⟩)).smul (1 + 0 * |(1 : ℝ)|) |>.smul 1)) :=
  force_on_discrepancy_signed_guard ⟨1, 0, ⟨0, 0, 1⟩⟩ ⟨0, 0, 0⟩ ⟨1, 0, 0⟩ ⟨1, 1, 0⟩ 1
    (by norm_num) le_rfl
    (by rw [Coordinate.norm]; norm_num)
    (by
      simp only [TorsionSpring.project, Coordinate.sub_def, Coordinate.inner_product,
        Coordinate.smul, Coordinate.zero, ne_eq, Coordinate.mk.injEq]
      norm_num)

/-- C10 witness: a gripping somite anchored at (0,0,1), now at (1,0,2) with
velocity (2,0,3), gripper constants k = 10, c = 20: force
(-10·1 - 20·2, 0, -10·1 - 20·3) = (-50, 0, -70), for two different applied
forces. -/
theorem gripping_force_vertical_spec_witness :
    Dynamics.calculate_somite_shear_force ⟨10, 20, 0, 0, 0, 0⟩
        ⟨⟨1, 0, 2⟩, ⟨2, 0, 3⟩, ⟨0, 0, 0⟩, 1, 1, true, ⟨0, 0, 1⟩⟩ ⟨5, 0, -6⟩ true =
      Coordinate.new (-50) 0 (-70) ∧
      Dynamics.calculate_somite_shear_force ⟨10, 20, 0, 0, 0, 0⟩
          ⟨⟨1, 0, 2⟩, ⟨2, 0, 3⟩, ⟨0, 0, 0⟩, 1, 1, true, ⟨0, 0, 1⟩⟩ ⟨5, 0, -6⟩ true =
        Dynamics.calculate_somite_shear_force ⟨10, 20, 0, 0, 0, 0⟩
          ⟨⟨1, 0, 2⟩, ⟨2, 0, 3⟩, ⟨0, 0, 0⟩, 1, 1, true, ⟨0, 0, 1⟩⟩ ⟨7, 7, 7⟩ true := by
  have h := gripping_force_vertical_spec ⟨10, 20, 0, 0, 0, 0⟩
    ⟨⟨1, 0, 2⟩, ⟨2, 0, 3⟩, ⟨0, 0, 0⟩, 1, 1, true, ⟨0, 0, 1⟩⟩ ⟨5, 0, -6⟩ ⟨7, 7, 7⟩ rfl
  refine ⟨h.1.trans ?_, h.2⟩
  norm_num

end Caterpillar
